import Mathlib

/-!
Shallow embedding of `simulator.py` and `monitor_streamlit.py` from the
zpoom repository (a CPU-bound "meeting participant" simulator plus a
process controller), together with theorems about the embedded code.

Modelling conventions:
* wall-clock time, the PRNG stream and timestamps are oracles passed in
  as explicit arguments (a list of random draws, a function from call
  index to timestamp string);
* the shared status table is modelled by the sequence of writes a worker
  performs on its own entry (plain-dict semantics: every write is
  recorded);
* fallible I/O (appending to the log file, sending a signal to a pid) is
  an `Except`-valued oracle, and `try/except` blocks become `match`.
-/

namespace Zpoom

/-- Decimal digits of a positive number, most significant first, with an
explicit structural fuel so that the kernel can evaluate it.  Mirrors what
Python `str(int)` produces. -/
def natDigitsAux : Nat → Nat → List Char
  | 0, _ => []
  | fuel + 1, n =>
    if n = 0 then []
    else natDigitsAux fuel (n / 10) ++ [Char.ofNat (48 + n % 10)]

/-- Python `str(n)` for a non-negative integer `n`. -/
def natToString (n : Nat) : String :=
  if n = 0 then "0" else String.mk (natDigitsAux n n)

/-- Value of a list of decimal digit characters, most significant first. -/
def digitsVal (ds : List Char) : Nat :=
  ds.foldl (fun a c => 10 * a + (c.toNat - 48)) 0

/-- `simulator.py`, `cpu_work_for`: the primality-ish trial-division test
the work loop performs on a candidate `n`: trial division by
`i in range(3, isqrt(n)+1, 2)`, i.e. odd divisors from `3` up to the
integer square root. -/
def isPrimeTrial (n : Nat) : Bool :=
  (List.range' 3 ((Nat.sqrt n - 1) / 2) 2).all (fun i => n % i != 0)

/-- One iteration of the `while time.time() < end` loop body in
`cpu_work_for`: take the next draw `d` of `random.randint(10**5, 10**6)`,
form the odd candidate `d | 1`, run the trial-division test, and increment
the count. -/
def cpuWorkStep (count : Nat) (d : Nat) : Nat :=
  let n := d ||| 1
  let _ := isPrimeTrial n
  count + 1

/-- `simulator.py`, `cpu_work_for`: the wall-clock-bounded work loop.  The
clock is abstracted into the list `draws` of pseudo-random numbers drawn
before the deadline passes; the function returns the final `count`. -/
def cpu_work_for (draws : List Nat) : Nat :=
  draws.foldl cpuWorkStep 0

/-- A Python value stored in a status-table entry or a log record: the
program only ever stores strings, ints and the pid. -/
inductive PyVal
  | s (v : String)
  | n (v : Nat)
deriving DecidableEq

/-- Lower-case hexadecimal digit, as produced by Python `json.dumps` in
its escape sequences. -/
def hexDigit (d : Nat) : Char :=
  if d < 10 then Char.ofNat (48 + d) else Char.ofNat (87 + d)

/-- Four-digit hexadecimal rendering used in a JSON escape. -/
def hex4 (n : Nat) : List Char :=
  [hexDigit (n / 4096 % 16), hexDigit (n / 256 % 16),
   hexDigit (n / 16 % 16), hexDigit (n % 16)]

/-- How Python `json.dumps` (default `ensure_ascii=True`) renders one
character inside a JSON string literal. -/
def escChar (c : Char) : List Char :=
  if c = Char.ofNat 34 then [Char.ofNat 92, Char.ofNat 34]
  else if c = Char.ofNat 92 then [Char.ofNat 92, Char.ofNat 92]
  else if c = Char.ofNat 10 then [Char.ofNat 92, Char.ofNat 110]
  else if c = Char.ofNat 13 then [Char.ofNat 92, Char.ofNat 114]
  else if c = Char.ofNat 9 then [Char.ofNat 92, Char.ofNat 116]
  else if c.toNat = 8 then [Char.ofNat 92, Char.ofNat 98]
  else if c.toNat = 12 then [Char.ofNat 92, Char.ofNat 102]
  else if c.toNat < 32 then Char.ofNat 92 :: Char.ofNat 117 :: hex4 c.toNat
  else if c.toNat < 127 then [c]
  else if c.toNat < 65536 then Char.ofNat 92 :: Char.ofNat 117 :: hex4 c.toNat
  else (Char.ofNat 92 :: Char.ofNat 117 :: hex4 (55296 + (c.toNat - 65536) / 1024))
       ++ (Char.ofNat 92 :: Char.ofNat 117 :: hex4 (56320 + (c.toNat - 65536) % 1024))

/-- A JSON string literal as `json.dumps` prints it. -/
def jsonStr (s : String) : String :=
  "\"" ++ String.mk ((s.data.map escChar).flatten) ++ "\""

/-- A JSON scalar as `json.dumps` prints it. -/
def jsonVal : PyVal → String
  | .s v => jsonStr v
  | .n v => natToString v

/-- Python's default item separator `", "` interleaved between the
rendered members of a JSON object. -/
def joinComma : List String → String
  | [] => ""
  | [x] => x
  | x :: y :: ys => x ++ ", " ++ joinComma (y :: ys)

/-- `json.dumps` of a dict with the given key/value pairs, with Python's
default separators. -/
def jsonDump (r : List (String × PyVal)) : String :=
  "\x7b" ++ joinComma
      (r.map (fun kv => jsonStr kv.1 ++ ": " ++ jsonVal kv.2)) ++ "\x7d"

/-- `simulator.py`, `generate_names`: the fixed first-name pool. -/
def first : List String :=
  ["Aarav", "Vivaan", "Aditya", "Arjun", "Reyansh",
   "Krishna", "Kabir", "Ishaan", "Vihaan", "Rohan"]

/-- `simulator.py`, `generate_names`: the fixed last-name pool. -/
def last : List String :=
  ["Sharma", "Verma", "Khan", "Patel", "Singh",
   "Gupta", "Reddy", "Nair", "Mehta", "Joshi"]

/-- `simulator.py`, `generate_names`: the `random.choice` calls are the
oracles `fc i` and `lc i` (the first/last name sampled at loop index `i`);
the name built for index `i` is the f-string
`f"{random.choice(first)} {random.choice(last)} #{i+1}"`. -/
def generate_names (count : Nat) (fc lc : Nat → String) : List String :=
  (List.range count).map
    (fun i => fc i ++ " " ++ lc i ++ " #" ++ natToString (i + 1))

/-- The run configuration a worker receives (the arguments of
`worker` in `simulator.py` apart from the oracles). -/
structure WorkerCfg where
  name : String
  meeting_code : String
  passcode : String
  stay_seconds : Int
  work_seconds : Rat
  log_path : Option String
  stagger : Rat
deriving DecidableEq

/-- One observable step a worker performs: a write to its own entry of
the shared status table (`statusInit` is the initial
`status_dict[name] = {...}` dict assignment, `statusSet` a subsequent
field assignment), a `time.sleep`, a successful log append, or the
diagnostic printed when the append fails. -/
inductive WEvent
  | statusInit (state : String) (pid : Nat) (started_at : String)
  | statusSet (field : String) (value : PyVal)
  | sleep (dur : Rat)
  | logWrite (line : String)
  | diag (msg : String)
deriving DecidableEq

/-- `simulator.py`, line 64: the remaining idle time
`max(0, stay_seconds - work_seconds)`. -/
def remainingIdle (stay_seconds : Int) (work_seconds : Rat) : Rat :=
  max 0 ((stay_seconds : Rat) - work_seconds)

/-- The log record dict built at lines 73-79 of `simulator.py`. -/
def logRecord (name meeting_code started_at left_at : String)
    (work_done : Nat) : List (String × PyVal) :=
  [("name", .s name), ("meeting_code", .s meeting_code),
   ("started_at", .s started_at), ("left_at", .s left_at),
   ("work_done", .n work_done)]

/-- `simulator.py`, `worker`: the full lifecycle of one participant, as
the list of observable events it performs.  `clock k` is the string
returned by the `k`-th `datetime.utcnow().isoformat()` call, `draws` the
PRNG stream consumed by `cpu_work_for`, and `writeRes` the outcome of the
`open`/`write` of the log append (the `try` block's only fallible part,
whose `except` branch prints a diagnostic). -/
def worker (cfg : WorkerCfg) (pid : Nat) (clock : Nat → String)
    (draws : List Nat) (writeRes : Except String Unit) : List WEvent :=
  let started_at := clock 0 ++ "Z"
  [WEvent.statusInit "connecting" pid started_at]
  ++ (if cfg.stagger > 0 then [WEvent.sleep cfg.stagger] else [])
  ++ [WEvent.statusSet "state" (.s "connected"),
      WEvent.statusSet "connected_at" (.s (clock 1 ++ "Z")),
      WEvent.statusSet "state" (.s "working"),
      WEvent.statusSet "work_started_at" (.s (clock 2 ++ "Z"))]
  ++ (let jobs_done := cpu_work_for draws
      [WEvent.statusSet "work_done" (.n jobs_done),
       WEvent.statusSet "work_finished_at" (.s (clock 3 ++ "Z")),
       WEvent.statusSet "state" (.s "idle"),
       WEvent.sleep (remainingIdle cfg.stay_seconds cfg.work_seconds),
       WEvent.statusSet "state" (.s "left"),
       WEvent.statusSet "left_at" (.s (clock 4 ++ "Z"))]
      ++ (match cfg.log_path with
          | none => []
          | some _ =>
            let record := logRecord cfg.name cfg.meeting_code started_at
                (clock 4 ++ "Z") jobs_done
            match writeRes with
            | .ok _ => [WEvent.logWrite (jsonDump record ++ "\n")]
            | .error e => [WEvent.diag ("Could not write log: " ++ e)]))

/-- The sequence of values the worker writes to the `"state"` field of
its status-table entry, in order (the initial dict assignment included). -/
def stateSeq (evs : List WEvent) : List String :=
  evs.filterMap (fun e =>
    match e with
    | .statusInit st _ _ => some st
    | .statusSet f (.s v) => if f = "state" then some v else none
    | _ => none)

/-- One observable step of `run_simulation`: spawning worker `i` (with
the name and the stagger argument passed to it), one iteration of the
monitoring loop (printing the alive count), `p.terminate()`, `p.join()`,
and the final completion report. -/
inductive SimEvent
  | start (i : Nat) (pname : String) (stagger_arg : Rat)
  | poll (alive : Nat)
  | terminate (i : Nat)
  | join (i : Nat)
  | reportComplete (logfile : Option String)
deriving DecidableEq

/-- `simulator.py`, `run_simulation`: spawn one worker per generated name
with stagger argument `i*stagger`, run the monitoring loop (`polls` is
the sequence of alive counts it observes, an oracle for process
liveness), on `KeyboardInterrupt` (`interrupted = true`) terminate every
worker, then in the `finally` block join every worker, and print the
completion report. -/
def run_simulation (number_of_users : Nat) (meeting_code passcode : String)
    (stay_seconds : Int) (work_seconds : Rat) (stagger : Rat)
    (logfile : Option String) (fc lc : Nat → String)
    (polls : List Nat) (interrupted : Bool) : List SimEvent :=
  let names := generate_names number_of_users fc lc
  ((List.range number_of_users).map
      (fun i => SimEvent.start i (names.getD i "") ((i : Rat) * stagger)))
  ++ polls.map SimEvent.poll
  ++ (if interrupted
      then (List.range number_of_users).map SimEvent.terminate
      else [])
  ++ (List.range number_of_users).map SimEvent.join
  ++ [SimEvent.reportComplete logfile]

/-- `monitor_streamlit.py`, `is_pid_running`: the liveness probe.
Returns the boolean outcome together with the list of pids it actually
signalled via `os.kill(pid, 0)`.  `kill0 p` is the oracle for that
signal; an `OSError` (the `.error` case) is caught and mapped to
`False`.  A falsy pid (`None` or `0`) short-circuits to `False` before
any signal is sent. -/
def is_pid_running (kill0 : Nat → Except String Unit) :
    Option Nat → Bool × List Nat
  | none => (false, [])
  | some p =>
    if p = 0 then (false, [])
    else
      match kill0 p with
      | .ok _ => (true, [p])
      | .error _ => (false, [p])

/-- Outcome of the Start Simulation button handler in
`monitor_streamlit.py`: the new tracked pid, whether a subprocess was
spawned, and whether the duplicate-run warning was shown. -/
structure StartResult where
  proc_pid : Option Nat
  spawned : Bool
  warned : Bool
deriving DecidableEq

/-- `monitor_streamlit.py`, the Start Simulation button: if
`is_pid_running(st.session_state.proc_pid)` then warn and change
nothing, else spawn the simulator subprocess (whose pid the OS chooses:
oracle `spawnPid`) and record its pid. -/
def start_button (kill0 : Nat → Except String Unit) (spawnPid : Nat)
    (proc_pid : Option Nat) : StartResult :=
  if (is_pid_running kill0 proc_pid).1 then
    { proc_pid := proc_pid, spawned := false, warned := true }
  else
    { proc_pid := some spawnPid, spawned := true, warned := false }

/-! ## Helper lemmas -/

/-- Forcing the low bit with `| 1` in `cpu_work_for`. -/
theorem lor_one_eq (n : Nat) : n ||| 1 = 2 * (n / 2) + 1 := by
  conv_lhs => rw [← Nat.bit_decomp n]
  have h1 : (1 : Nat) = Nat.bit true 0 := rfl
  rw [h1, Nat.lor_bit]
  simp [Nat.bit_val, Nat.div2_val]

/-- The work loop's fold just counts its iterations. -/
theorem foldl_cpuWorkStep (draws : List Nat) :
    ∀ c, draws.foldl cpuWorkStep c = c + draws.length := by
  induction draws with
  | nil => simp
  | cons d ds ih =>
    intro c
    simp [List.foldl_cons, cpuWorkStep, ih, Nat.add_assoc, Nat.add_comm 1]

/-- The loop `for i in range(3, isqrt(n)+1, 2)` checks exactly the odd
divisors from `3` up to `isqrt(n)`. -/
theorem isPrimeTrial_iff (n : Nat) :
    isPrimeTrial n = true ↔
      ∀ i, 3 ≤ i → i ≤ Nat.sqrt n → i % 2 = 1 → ¬(i ∣ n) := by
  unfold isPrimeTrial
  rw [List.all_eq_true]
  constructor
  · intro h i h3 hle hodd hdvd
    have hmem : i ∈ List.range' 3 ((Nat.sqrt n - 1) / 2) 2 := by
      rw [List.mem_range']
      exact ⟨(i - 3) / 2, by omega, by omega⟩
    have hne := h i hmem
    simp only [bne_iff_ne, ne_eq] at hne
    exact hne (Nat.mod_eq_zero_of_dvd hdvd)
  · intro h i hmem
    rw [List.mem_range'] at hmem
    obtain ⟨j, hj, rfl⟩ := hmem
    simp only [bne_iff_ne, ne_eq]
    intro hmod
    exact h (3 + 2 * j) (by omega) (by omega) (by omega)
      (Nat.dvd_of_mod_eq_zero hmod)

/-- For an odd candidate `≥ 3`, the trial-division loop genuinely decides
primality. -/
theorem isPrimeTrial_correct (n : Nat) (hodd : n % 2 = 1) (h3 : 3 ≤ n) :
    (isPrimeTrial n = true ↔ Nat.Prime n) := by
  rw [isPrimeTrial_iff]
  constructor
  · intro h
    rw [Nat.prime_def_le_sqrt]
    refine ⟨by omega, fun m hm hle hdvd => ?_⟩
    rcases Nat.even_or_odd m with he | ho
    · obtain ⟨k, rfl⟩ := he
      have h2 : (2 : Nat) ∣ n := dvd_trans ⟨k, by ring⟩ hdvd
      have := Nat.mod_eq_zero_of_dvd h2
      omega
    · have hm1 : m % 2 = 1 := Nat.odd_iff.mp ho
      exact h m (by omega) hle hm1 hdvd
  · intro hp i h3i hle hodd2 hdvd
    rcases (Nat.Prime.eq_one_or_self_of_dvd hp i hdvd) with h1 | hn
    · omega
    · have hs : Nat.sqrt n < n := Nat.sqrt_lt_self (by omega)
      omega

/-- The characters Python prints for decimal digits have code points
`48`–`57`. -/
theorem char_digit_toNat : ∀ d, d < 10 → (Char.ofNat (48 + d)).toNat = 48 + d := by
  decide

/-- Every character of a decimal rendering is a digit character. -/
theorem natDigitsAux_digits :
    ∀ fuel n c, c ∈ natDigitsAux fuel n → 48 ≤ c.toNat ∧ c.toNat ≤ 57 := by
  intro fuel
  induction fuel with
  | zero => intro n c h; simp [natDigitsAux] at h
  | succ f ih =>
    intro n c h
    unfold natDigitsAux at h
    by_cases hn : n = 0
    · simp [hn] at h
    · rw [if_neg hn] at h
      rcases List.mem_append.mp h with h1 | h2
      · exact ih _ _ h1
      · simp at h2
        subst h2
        rw [char_digit_toNat (n % 10) (Nat.mod_lt _ (by norm_num))]
        omega

theorem digitsVal_append_singleton (xs : List Char) (c : Char) :
    digitsVal (xs ++ [c]) = 10 * digitsVal xs + (c.toNat - 48) := by
  unfold digitsVal
  rw [List.foldl_append]
  rfl

/-- Reading the decimal rendering back yields the rendered number. -/
theorem natDigitsAux_val :
    ∀ fuel n, 0 < n → n ≤ fuel → digitsVal (natDigitsAux fuel n) = n := by
  intro fuel
  induction fuel with
  | zero => intro n h1 h2; omega
  | succ f ih =>
    intro n h1 h2
    unfold natDigitsAux
    rw [if_neg (by omega), digitsVal_append_singleton,
      char_digit_toNat (n % 10) (by omega)]
    by_cases h10 : n / 10 = 0
    · have hz : natDigitsAux f (n / 10) = [] := by
        rw [h10]; cases f <;> simp [natDigitsAux]
      rw [hz]
      show 10 * 0 + (48 + n % 10 - 48) = n
      omega
    · rw [ih (n / 10) (by omega) (by omega)]
      omega

theorem natToString_data (n : Nat) (hn : 0 < n) :
    (natToString n).data = natDigitsAux n n := by
  unfold natToString
  rw [if_neg (by omega)]

/-- Python `str` is injective on positive integers. -/
theorem natToString_inj (m n : Nat) (hm : 0 < m) (hn : 0 < n)
    (h : (natToString m).data = (natToString n).data) : m = n := by
  rw [natToString_data m hm, natToString_data n hn] at h
  have h1 := natDigitsAux_val m m hm le_rfl
  rw [h, natDigitsAux_val n n hn le_rfl] at h1
  omega

theorem takeWhile_append_eq {α : Type} (p : α → Bool) (xs : List α) (y : α)
    (ys : List α) (hx : ∀ c ∈ xs, p c = true) (hy : p y = false) :
    (xs ++ y :: ys).takeWhile p = xs := by
  induction xs with
  | nil =>
    rw [List.nil_append, List.takeWhile_cons_of_neg]
    rw [hy]
    simp
  | cons a as ih =>
    have ha : p a = true := hx a (by simp)
    simp only [List.cons_append,
      List.takeWhile_cons_of_pos ha,
      ih (fun c hc => hx c (by simp [hc]))]

/-- No digit character of a rendered number is the `#` separator. -/
theorem notHash_of_mem_natToString (k : Nat) (hk : 0 < k) :
    ∀ c ∈ (natToString k).data.reverse, (c != '#') = true := by
  intro c hc
  rw [List.mem_reverse, natToString_data k hk] at hc
  have := natDigitsAux_digits k k c hc
  simp only [bne_iff_ne, ne_eq]
  intro hEq
  subst hEq
  simp at this

/-- Two generated display names agree only if their numeric suffixes
agree: the suffix is the segment after the last `#`, and neither the
digits nor anything the parts contribute can interfere with it. -/
theorem name_suffix_eq (f1 l1 f2 l2 : String) (m n : Nat) (hm : 0 < m)
    (hn : 0 < n)
    (h : f1 ++ " " ++ l1 ++ " #" ++ natToString m =
         f2 ++ " " ++ l2 ++ " #" ++ natToString n) : m = n := by
  have hd := congrArg String.data h
  simp only [String.data_append] at hd
  have hr := congrArg List.reverse hd
  simp only [List.reverse_append, List.reverse_cons, List.reverse_nil,
    List.append_assoc, List.cons_append, List.nil_append,
    List.singleton_append] at hr
  have hw := congrArg (List.takeWhile (fun c => c != '#')) hr
  rw [takeWhile_append_eq _ _ _ _ (notHash_of_mem_natToString m hm) (by simp),
    takeWhile_append_eq _ _ _ _ (notHash_of_mem_natToString n hn) (by simp)] at hw
  have hdata : (natToString m).data = (natToString n).data := by
    have := congrArg List.reverse hw
    simpa using this
  exact natToString_inj m n hm hn hdata

/-! ### JSON serialisation never emits a raw newline -/

theorem hexDigit_ne_nl : ∀ d, d < 16 → (hexDigit d != Char.ofNat 10) = true := by decide

theorem hex4_ne_nl (n : Nat) : ∀ c ∈ hex4 n, (c != Char.ofNat 10) = true := by
  intro c hc
  unfold hex4 at hc
  simp only [List.mem_cons, List.not_mem_nil, or_false] at hc
  rcases hc with rfl | rfl | rfl | rfl <;>
    exact hexDigit_ne_nl _ (Nat.mod_lt _ (by norm_num))

set_option maxHeartbeats 2000000 in
theorem escChar_ne_nl (c : Char) : ∀ x ∈ escChar c, (x != Char.ofNat 10) = true := by
  intro x hx
  unfold escChar at hx
  split_ifs at hx with h1 h2 h3 h4 h5 h6 h7 h8 h9 h10
  · simp only [List.mem_cons, List.not_mem_nil, or_false] at hx
    rcases hx with rfl | rfl <;> decide
  · simp only [List.mem_cons, List.not_mem_nil, or_false] at hx
    rcases hx with rfl | rfl <;> decide
  · simp only [List.mem_cons, List.not_mem_nil, or_false] at hx
    rcases hx with rfl | rfl <;> decide
  · simp only [List.mem_cons, List.not_mem_nil, or_false] at hx
    rcases hx with rfl | rfl <;> decide
  · simp only [List.mem_cons, List.not_mem_nil, or_false] at hx
    rcases hx with rfl | rfl <;> decide
  · simp only [List.mem_cons, List.not_mem_nil, or_false] at hx
    rcases hx with rfl | rfl <;> decide
  · simp only [List.mem_cons, List.not_mem_nil, or_false] at hx
    rcases hx with rfl | rfl <;> decide
  · simp only [List.mem_cons] at hx
    rcases hx with rfl | rfl | hx
    · decide
    · decide
    · exact hex4_ne_nl _ _ hx
  · simp only [List.mem_cons, List.not_mem_nil, or_false] at hx
    subst hx
    simp only [bne_iff_ne, ne_eq]
    intro hEq
    exact h3 hEq
  · simp only [List.mem_cons] at hx
    rcases hx with rfl | rfl | hx
    · decide
    · decide
    · exact hex4_ne_nl _ _ hx
  · rcases List.mem_append.mp hx with hx | hx <;>
      · simp only [List.mem_cons] at hx
        rcases hx with rfl | rfl | hx
        · decide
        · decide
        · exact hex4_ne_nl _ _ hx

theorem natToString_ne_nl (n : Nat) :
    ∀ c ∈ (natToString n).data, (c != Char.ofNat 10) = true := by
  intro c hc
  unfold natToString at hc
  by_cases hn : n = 0
  · rw [if_pos hn] at hc
    have h0 : ("0" : String).data = [Char.ofNat 48] := rfl
    rw [h0] at hc
    simp only [List.mem_cons, List.not_mem_nil, or_false] at hc
    subst hc
    decide
  · rw [if_neg hn] at hc
    have := natDigitsAux_digits n n c hc
    simp only [bne_iff_ne, ne_eq]
    intro hEq
    subst hEq
    simp at this

theorem jsonStr_ne_nl (s : String) :
    ∀ c ∈ (jsonStr s).data, (c != Char.ofNat 10) = true := by
  intro c hc
  unfold jsonStr at hc
  simp only [String.data_append] at hc
  rcases List.mem_append.mp hc with hc | hc
  · rcases List.mem_append.mp hc with hc | hc
    · simp only [List.mem_cons, List.not_mem_nil, or_false] at hc
      subst hc
      decide
    · rcases List.mem_flatten.mp hc with ⟨l, hl, hcl⟩
      rcases List.mem_map.mp hl with ⟨d, _, rfl⟩
      exact escChar_ne_nl d c hcl
  · simp only [List.mem_cons, List.not_mem_nil, or_false] at hc
    subst hc
    decide

theorem jsonVal_ne_nl (v : PyVal) :
    ∀ c ∈ (jsonVal v).data, (c != Char.ofNat 10) = true := by
  cases v with
  | s w => exact jsonStr_ne_nl w
  | n k => exact natToString_ne_nl k

theorem joinComma_ne_nl (l : List String)
    (h : ∀ s ∈ l, ∀ c ∈ s.data, (c != Char.ofNat 10) = true) :
    ∀ c ∈ (joinComma l).data, (c != Char.ofNat 10) = true := by
  induction l with
  | nil => intro c hc; simp [joinComma] at hc
  | cons x xs ih =>
    intro c hc
    cases xs with
    | nil => exact h x (by simp) c hc
    | cons y ys =>
      rw [joinComma] at hc
      simp only [String.data_append] at hc
      rcases List.mem_append.mp hc with hc | hc
      · rcases List.mem_append.mp hc with hc | hc
        · exact h x (by simp) c hc
        · simp only [List.mem_cons, List.not_mem_nil, or_false] at hc
          rcases hc with rfl | rfl <;> decide
      · exact ih (fun s hs => h s (List.mem_cons_of_mem x hs)) c hc

theorem jsonDump_ne_nl (r : List (String × PyVal)) :
    ∀ c ∈ (jsonDump r).data, (c != Char.ofNat 10) = true := by
  intro c hc
  unfold jsonDump at hc
  simp only [String.data_append] at hc
  rcases List.mem_append.mp hc with hc | hc
  · rcases List.mem_append.mp hc with hc | hc
    · simp only [List.mem_cons, List.not_mem_nil, or_false] at hc
      subst hc
      decide
    · refine joinComma_ne_nl _ ?_ c hc
      intro s hs d hd
      rcases List.mem_map.mp hs with ⟨kv, _, rfl⟩
      simp only [String.data_append] at hd
      rcases List.mem_append.mp hd with hd | hd
      · rcases List.mem_append.mp hd with hd | hd
        · exact jsonStr_ne_nl kv.1 d hd
        · simp only [List.mem_cons, List.not_mem_nil, or_false] at hd
          rcases hd with rfl | rfl <;> decide
      · exact jsonVal_ne_nl kv.2 d hd
  · simp only [List.mem_cons, List.not_mem_nil, or_false] at hc
    subst hc
    decide

/-! ## Claim theorems -/

/-- C1: every worker run records for its participant exactly the state
sequence `[connecting, connected, working, idle, left]` in the shared
status table, in that order, with no state skipped, repeated or
reversed, and nothing after `left`. -/
theorem worker_state_sequence (cfg : WorkerCfg) (pid : Nat)
    (clock : Nat → String) (draws : List Nat)
    (writeRes : Except String Unit) :
    stateSeq (worker cfg pid clock draws writeRes) =
      ["connecting", "connected", "working", "idle", "left"] := by
  unfold worker stateSeq
  rcases h1 : cfg.log_path with _ | p <;> rcases writeRes with u | e <;>
    by_cases h : cfg.stagger > 0 <;> simp [h]

/-- C2: the idle time a worker computes is `max(0, stay − work)`: it is
never negative, equals `45` for `stay = 60, work = 15`, equals `0` for
`stay = 10, work = 20`, and the worker sleeps for exactly that
duration. -/
theorem remainingIdle_spec :
    (∀ (s : Int) (w : Rat),
        remainingIdle s w = max 0 ((s : Rat) - w) ∧ 0 ≤ remainingIdle s w)
    ∧ remainingIdle 60 15 = 45 ∧ remainingIdle 10 20 = 0
    ∧ (∀ (cfg : WorkerCfg) (pid : Nat) (clock : Nat → String)
        (draws : List Nat) (writeRes : Except String Unit),
        WEvent.sleep (remainingIdle cfg.stay_seconds cfg.work_seconds)
          ∈ worker cfg pid clock draws writeRes) := by
  refine ⟨fun s w => ⟨rfl, le_max_left 0 _⟩, by norm_num [remainingIdle],
    by norm_num [remainingIdle], fun cfg pid clock draws writeRes => ?_⟩
  unfold worker
  simp

/-- C3: every candidate `cpu_work_for` tests is an odd integer in
`[10^5, 10^6 + 1]`; the trial division checks exactly the odd divisors
from `3` up to the candidate's integer square root (and for such odd
candidates genuinely decides primality); every tested candidate
increments the count, so the returned count is the number of candidates
tested, a non-negative integer. -/
theorem cpu_work_for_spec :
    (∀ d : Nat, 10 ^ 5 ≤ d → d ≤ 10 ^ 6 →
      Odd (d ||| 1) ∧ 10 ^ 5 ≤ d ||| 1 ∧ d ||| 1 ≤ 10 ^ 6 + 1)
    ∧ (∀ n : Nat, isPrimeTrial n = true ↔
        ∀ i, 3 ≤ i → i ≤ Nat.sqrt n → i % 2 = 1 → ¬(i ∣ n))
    ∧ (∀ n : Nat, n % 2 = 1 → 3 ≤ n →
        (isPrimeTrial n = true ↔ Nat.Prime n))
    ∧ (∀ draws : List Nat, cpu_work_for draws = draws.length)
    ∧ (∀ draws : List Nat, 0 ≤ cpu_work_for draws) := by
  refine ⟨fun d h1 h2 => ?_, isPrimeTrial_iff, isPrimeTrial_correct,
    fun draws => ?_, fun draws => Nat.zero_le _⟩
  · rw [lor_one_eq]
    refine ⟨Nat.odd_iff.mpr (by omega), by omega, by omega⟩
  · rw [cpu_work_for, foldl_cpuWorkStep, Nat.zero_add]

/-- Witness for C3 at concrete inputs. -/
theorem cpu_work_for_spec_witness :
    Odd (100000 ||| 1) ∧ (isPrimeTrial 100003 = true ↔ Nat.Prime 100003) ∧
      cpu_work_for [100000, 100001] = 2 :=
  ⟨(cpu_work_for_spec.1 100000 (by norm_num) (by norm_num)).1,
   cpu_work_for_spec.2.2.1 100003 (by norm_num) (by norm_num),
   cpu_work_for_spec.2.2.2.1 [100000, 100001]⟩

/-- C4: for every count `≥ 1` and arbitrary name-part samples (even all
colliding), `generate_names` returns exactly `count` pairwise-distinct
full strings, the `i`-th carrying the 1-based suffix `#(i+1)`. -/
theorem generate_names_distinct (count : Nat) (fc lc : Nat → String)
    (hc : 1 ≤ count) :
    (generate_names count fc lc).length = count
    ∧ (generate_names count fc lc).Nodup
    ∧ ∀ i, i < count → (generate_names count fc lc)[i]? =
        some (fc i ++ " " ++ lc i ++ " #" ++ natToString (i + 1)) := by
  refine ⟨by simp [generate_names], ?_, fun i hi => by simp [generate_names, hi]⟩
  unfold generate_names
  refine List.Nodup.map_on ?_ (List.nodup_range count)
  intro x hx y hy hEq
  have := name_suffix_eq _ _ _ _ (x + 1) (y + 1) (by omega) (by omega) hEq
  omega

/-- Witness for C4: two participants with identical sampled parts still
receive distinct names. -/
theorem generate_names_distinct_witness :
    (generate_names 2 (fun _ => "Aarav") (fun _ => "Sharma")).Nodup :=
  (generate_names_distinct 2 (fun _ => "Aarav") (fun _ => "Sharma")
    (by norm_num)).2.1

/-- C5: with a log path configured and the append succeeding, the worker
appends exactly one log line: the JSON rendering of the five-field record
`name, meeting_code, started_at, left_at, work_done`, where `started_at`
is the timestamp taken at worker start with a trailing `"Z"`,
`work_done` is the (non-negative) work count, and the rendered JSON
contains no newline — the trailing `"\n"` is the only one. -/
theorem worker_log_line (cfg : WorkerCfg) (p : String) (pid : Nat)
    (clock : Nat → String) (draws : List Nat) (hp : cfg.log_path = some p) :
    WEvent.logWrite (jsonDump (logRecord cfg.name cfg.meeting_code
        (clock 0 ++ "Z") (clock 4 ++ "Z") (cpu_work_for draws)) ++ "\n")
      ∈ worker cfg pid clock draws (.ok ())
    ∧ (∀ line, WEvent.logWrite line ∈ worker cfg pid clock draws (.ok ()) →
        line = jsonDump (logRecord cfg.name cfg.meeting_code
          (clock 0 ++ "Z") (clock 4 ++ "Z") (cpu_work_for draws)) ++ "\n")
    ∧ (logRecord cfg.name cfg.meeting_code (clock 0 ++ "Z") (clock 4 ++ "Z")
        (cpu_work_for draws)).map Prod.fst =
      ["name", "meeting_code", "started_at", "left_at", "work_done"]
    ∧ (∀ c ∈ (jsonDump (logRecord cfg.name cfg.meeting_code (clock 0 ++ "Z")
        (clock 4 ++ "Z") (cpu_work_for draws))).data,
        (c != Char.ofNat 10) = true)
    ∧ 0 ≤ cpu_work_for draws := by
  refine ⟨?_, ?_, rfl, jsonDump_ne_nl _, Nat.zero_le _⟩
  · unfold worker
    rw [hp]
    by_cases h : cfg.stagger > 0 <;> simp [h]
  · intro line hline
    unfold worker at hline
    rw [hp] at hline
    by_cases h : cfg.stagger > 0 <;> simp [h] at hline <;> exact hline

/-- Witness for C5 at a concrete configuration. -/
theorem worker_log_line_witness :
    WEvent.logWrite (jsonDump (logRecord "A" "M" ("T" ++ "Z") ("T" ++ "Z")
        (cpu_work_for [100000])) ++ "\n")
      ∈ worker ⟨"A", "M", "", 60, 15, some "log", 0⟩ 1 (fun _ => "T")
        [100000] (.ok ()) :=
  (worker_log_line ⟨"A", "M", "", 60, 15, some "log", 0⟩ "log" 1
    (fun _ => "T") [100000] rfl).1

/-- C6: a worker is a total function of its oracles — the only fallible
operation (the log append) is wrapped in `try/except` — so whatever the
append's outcome, the full lifecycle trace is produced; when the append
fails, the diagnostic is emitted and no log line is written. -/
theorem worker_catches_log_failure (cfg : WorkerCfg) (pid : Nat)
    (clock : Nat → String) (draws : List Nat)
    (writeRes : Except String Unit) :
    stateSeq (worker cfg pid clock draws writeRes) =
      ["connecting", "connected", "working", "idle", "left"]
    ∧ (∀ e p, writeRes = .error e → cfg.log_path = some p →
        WEvent.diag ("Could not write log: " ++ e)
            ∈ worker cfg pid clock draws writeRes
          ∧ ∀ line, WEvent.logWrite line ∉ worker cfg pid clock draws writeRes) := by
  constructor
  · unfold worker stateSeq
    rcases h1 : cfg.log_path with _ | p <;> rcases writeRes with u | e <;>
      by_cases h : cfg.stagger > 0 <;> simp [h]
  · rintro e p rfl hp
    unfold worker
    rw [hp]
    constructor
    · by_cases h : cfg.stagger > 0 <;> simp [h]
    · intro line
      by_cases h : cfg.stagger > 0 <;> simp [h]

/-- Witness for C6: a concrete failing append. -/
theorem worker_catches_log_failure_witness :
    WEvent.diag ("Could not write log: " ++ "EIO")
        ∈ worker ⟨"A", "M", "", 60, 15, some "log", 0⟩ 1 (fun _ => "T")
          [100000] (.error "EIO")
      ∧ ∀ line, WEvent.logWrite line
        ∉ worker ⟨"A", "M", "", 60, 15, some "log", 0⟩ 1 (fun _ => "T")
          [100000] (.error "EIO") :=
  (worker_catches_log_failure ⟨"A", "M", "", 60, 15, some "log", 0⟩ 1
    (fun _ => "T") [100000] (.error "EIO")).2 "EIO" "log" rfl rfl

/-- C7: when interrupted, `run_simulation` terminates every worker; on
every run path it joins every worker strictly before the completion
report, which is the last event of the run. -/
theorem run_simulation_joins_before_report (n : Nat) (mc pc : String)
    (stay : Int) (work stagger : Rat) (logfile : Option String)
    (fc lc : Nat → String) (polls : List Nat) (interrupted : Bool) :
    (interrupted = true → ∀ i, i < n →
      SimEvent.terminate i
        ∈ run_simulation n mc pc stay work stagger logfile fc lc polls interrupted)
    ∧ (∀ i, i < n →
      SimEvent.join i
        ∈ (run_simulation n mc pc stay work stagger logfile fc lc polls
            interrupted).dropLast)
    ∧ (run_simulation n mc pc stay work stagger logfile fc lc polls
        interrupted).getLast? = some (SimEvent.reportComplete logfile) := by
  have hsplit : run_simulation n mc pc stay work stagger logfile fc lc polls
      interrupted =
      (((List.range n).map
          (fun i => SimEvent.start i
            ((generate_names n fc lc).getD i "") ((i : Rat) * stagger)))
        ++ polls.map SimEvent.poll
        ++ (if interrupted
            then (List.range n).map SimEvent.terminate
            else [])
        ++ (List.range n).map SimEvent.join)
      ++ [SimEvent.reportComplete logfile] := by
    unfold run_simulation
    simp [List.append_assoc]
  refine ⟨fun hi i hin => ?_, fun i hin => ?_, ?_⟩
  · rw [hsplit]
    simp [hi, List.mem_append]
    exact hin
  · rw [hsplit, List.dropLast_concat]
    simp [List.mem_append]
    exact hin
  · rw [hsplit, List.getLast?_concat]

/-- Witness for C7: one interrupted worker is terminated. -/
theorem run_simulation_joins_before_report_witness :
    SimEvent.terminate 0
      ∈ run_simulation 1 "M" "" 60 15 0 none (fun _ => "A") (fun _ => "B")
          [] true :=
  (run_simulation_joins_before_report 1 "M" "" 60 15 0 none (fun _ => "A")
    (fun _ => "B") [] true).1 rfl 0 (by norm_num)

/-- C8: the `i`-th spawned worker (0-based) receives the stagger argument
`i * stagger` — so the first receives `0` — and the spawn events occupy
the first `n` positions of the run trace (the workers are launched
back-to-back); the stagger materialises inside the worker as its initial
sleep, performed right after the `connecting` write and before any other
state transition. -/
theorem stagger_spec :
    (∀ (n : Nat) (mc pc : String) (stay : Int) (work stagger : Rat)
        (logfile : Option String) (fc lc : Nat → String) (polls : List Nat)
        (interrupted : Bool) (i : Nat), i < n →
      (run_simulation n mc pc stay work stagger logfile fc lc polls
          interrupted)[i]? =
        some (SimEvent.start i ((generate_names n fc lc).getD i "")
          ((i : Rat) * stagger)))
    ∧ ((0 : Rat) * 1 = 0)
    ∧ (∀ (cfg : WorkerCfg) (pid : Nat) (clock : Nat → String)
        (draws : List Nat) (writeRes : Except String Unit),
        cfg.stagger > 0 →
        (worker cfg pid clock draws writeRes)[0]? =
            some (WEvent.statusInit "connecting" pid (clock 0 ++ "Z"))
          ∧ (worker cfg pid clock draws writeRes)[1]? =
            some (WEvent.sleep cfg.stagger)) := by
  refine ⟨fun n mc pc stay work stagger logfile fc lc polls interrupted i hin => ?_,
    by norm_num, fun cfg pid clock draws writeRes h => ?_⟩
  · simp only [run_simulation]
    rw [List.getElem?_append_left (by simp; omega),
      List.getElem?_append_left (by simp; omega),
      List.getElem?_append_left (by simp; omega),
      List.getElem?_append_left (by simpa using hin)]
    simp [hin]
  · unfold worker
    rw [if_pos h]
    constructor <;> rfl

/-- Witness for C8 at a concrete two-user run with stagger `1/2`. -/
theorem stagger_spec_witness :
    (run_simulation 2 "M" "" 60 15 (1 / 2) none (fun _ => "A") (fun _ => "B")
        [] false)[1]? =
      some (SimEvent.start 1
        ((generate_names 2 (fun _ => "A") (fun _ => "B")).getD 1 "")
        ((1 : Rat) * (1 / 2))) :=
  stagger_spec.1 2 "M" "" 60 15 (1 / 2) none (fun _ => "A") (fun _ => "B")
    [] false 1 (by norm_num)

/-- C9: while the liveness probe reports the tracked pid alive, the
start action warns, spawns nothing, and leaves the tracked pid
unchanged. -/
theorem start_button_rejects_running (kill0 : Nat → Except String Unit)
    (spawnPid : Nat) (proc_pid : Option Nat)
    (h : (is_pid_running kill0 proc_pid).1 = true) :
    start_button kill0 spawnPid proc_pid =
      { proc_pid := proc_pid, spawned := false, warned := true } := by
  unfold start_button
  rw [if_pos h]

/-- Witness for C9: alive pid 5 under an always-succeeding signal. -/
theorem start_button_rejects_running_witness :
    start_button (fun _ => Except.ok ()) 9 (some 5) =
      { proc_pid := some 5, spawned := false, warned := true } :=
  start_button_rejects_running (fun _ => Except.ok ()) 9 (some 5) rfl

/-- C10: the liveness probe is a total function: a falsy pid (`None` or
`0`) yields `False` with no signal sent, and for any other pid the
outcome of the no-op signal is mapped to a boolean — an `OSError` becomes
`False` — rather than propagated. -/
theorem is_pid_running_spec (kill0 : Nat → Except String Unit) :
    is_pid_running kill0 none = (false, [])
    ∧ is_pid_running kill0 (some 0) = (false, [])
    ∧ (∀ p e, p ≠ 0 → kill0 p = .error e →
        is_pid_running kill0 (some p) = (false, [p]))
    ∧ (∀ p u, p ≠ 0 → kill0 p = .ok u →
        is_pid_running kill0 (some p) = (true, [p])) := by
  refine ⟨rfl, rfl, fun p e hp he => ?_, fun p u hp hu => ?_⟩
  · simp [is_pid_running, hp, he]
  · simp [is_pid_running, hp, hu]

/-- Witness for C10: a probe whose signal always fails reports pid 7 as
not running. -/
theorem is_pid_running_spec_witness :
    is_pid_running (fun _ => Except.error "ESRCH") (some 7) = (false, [7]) :=
  (is_pid_running_spec (fun _ => Except.error "ESRCH")).2.2.1 7 "ESRCH"
    (by norm_num) rfl

end Zpoom
